import Mathlib

set_option maxRecDepth 8000

/-!
Shallow embedding of the language-matcher core from `src/lib.rs`
(Berrysoft/language-matcher): subtag-matching rules, the ordered rule
table, the three-pass distance engine, and best-match selection.

Machine integers: `distance` is a `u16` in the source.  We embed `u16`
values as `Nat` together with explicit wrap-around (`% 2 ^ 16`) at every
arithmetic step, i.e. release-mode Rust semantics.  Fallible control flow
(the `unreachable!()` branch of `distance_match`) is embedded as `Option`:
`none` models reaching the panic.

The rule table, variable table and paradigm set are construction-time data
(parsed from `data/languageInfo.xml`, which is outside the embedded core),
so every definition here is parameterised by them.  The `HashMap` of
variables is embedded as a total lookup function returning the value set
as a list (the panic on an absent key is outside the behaviour any claim
touches); the `HashSet` of paradigm locales is embedded as a list queried
through `List.contains`.
-/

/-- The four subtag-rule forms from `enum SubTagRule` in the source:
a literal string, a variable reference, a negated variable reference,
and the wildcard. -/
inductive SubTagRule where
  | Str (s : String)
  | Var (key : String)
  | VarExclude (key : String)
  | All
deriving DecidableEq, Repr

/-- `type Variables = HashMap<String, HashSet<String>>`, embedded as the
total function a lookup performs: variable name to set of subtag values. -/
def Variables : Type := String → List String

/-- `impl Rule<&str> for &SubTagRule` — matching a single present subtag. -/
def SubTagRule.matches (r : SubTagRule) (tag : String) (vars : Variables) : Bool :=
  match r with
  | .Str s => s == tag
  | .Var key => (vars key).contains tag
  | .VarExclude key => !((vars key).contains tag)
  | .All => true

/-- `impl Rule<Option<&str>> for Option<&SubTagRule>` — matching an
optional pattern against an optional subtag, arm for arm as in the
source `match`. -/
def SubTagRule.matchesOpt (r : Option SubTagRule) (tag : Option String) (vars : Variables) : Bool :=
  match r, tag with
  | none, none => true
  | some .All, _ => true
  | some s, some tag => s.matches tag vars
  | _, _ => false

/-- `icu_locid::LanguageIdentifier`, restricted to the three fields the
matcher reads: language, optional script, optional region (each subtag
embedded as its string form). -/
structure LanguageIdentifier where
  language : String
  script : Option String
  region : Option String
deriving DecidableEq, Repr

/-- `struct LanguageIdentifierRule`: a tag pattern — language pattern
plus optional script and region patterns. -/
structure LanguageIdentifierRule where
  language : SubTagRule
  script : Option SubTagRule
  region : Option SubTagRule
deriving DecidableEq, Repr

/-- `impl Rule<&LanguageIdentifier> for &LanguageIdentifierRule`:
conjunction of the three per-subtag matches. -/
def LanguageIdentifierRule.matches (r : LanguageIdentifierRule) (lang : LanguageIdentifier)
    (vars : Variables) : Bool :=
  r.language.matches lang.language vars
    && SubTagRule.matchesOpt r.script lang.script vars
    && SubTagRule.matchesOpt r.region lang.region vars

/-- `struct LanguageMatch`: one rule of the table.  `distance` is `u16`
in the source, embedded as `Nat` (see the header note on wrap-around). -/
structure LanguageMatch where
  desired : LanguageIdentifierRule
  supported : LanguageIdentifierRule
  distance : Nat
  oneway : Bool
deriving DecidableEq, Repr

/-- `struct LanguageMatcher`, minus the embedded static data: paradigm
set, variable table, ordered rule table, and the external maximization
collaborator (`LocaleExpander::maximize`) as an opaque-to-us function. -/
structure LanguageMatcher where
  paradiam : List LanguageIdentifier
  vars : Variables
  rules : List LanguageMatch
  expander : LanguageIdentifier → LanguageIdentifier

/-- `fn is_paradiam`: membership of the paradigm set. -/
def LanguageMatcher.is_paradiam (m : LanguageMatcher) (lang : LanguageIdentifier) : Bool :=
  m.paradiam.contains lang

/-- Truncation to a `u16` value: release-mode wrap-around. -/
def u16 (n : Nat) : Nat := n % 65536

/-- Wrapping `u16` subtraction (for arguments already below `2 ^ 16`). -/
def u16sub (a b : Nat) : Nat := (a + 65536 - b) % 65536

/-- The score computed once a rule has matched, from the body of the
`if matches` block in `fn distance_match`: `rule.distance * 10` as `u16`,
minus one (wrapping) when exactly one side is a paradigm locale. -/
def matchScore (m : LanguageMatcher) (rule : LanguageMatch)
    (desired supported : LanguageIdentifier) : Nat :=
  let distance := u16 (rule.distance * 10)
  if Bool.xor (m.is_paradiam desired) (m.is_paradiam supported) then u16sub distance 1
  else distance

/-- The loop of `fn distance_match` over the remaining rules: direct test,
then — for rules that are not one-way and failed the direct test — the
swapped test; first hit returns its score, falling off the end is the
`unreachable!()` panic (`none`). -/
def LanguageMatcher.matchLoop (m : LanguageMatcher) (desired supported : LanguageIdentifier) :
    List LanguageMatch → Option Nat
  | [] => none
  | rule :: rest =>
    let m0 := rule.desired.matches desired m.vars && rule.supported.matches supported m.vars
    let m1 := if !rule.oneway && !m0 then
        rule.supported.matches desired m.vars && rule.desired.matches supported m.vars
      else m0
    if m1 then some (matchScore m rule desired supported)
    else m.matchLoop desired supported rest

/-- `fn distance_match`: scan the whole rule table. -/
def LanguageMatcher.distance_match (m : LanguageMatcher)
    (desired supported : LanguageIdentifier) : Option Nat :=
  m.matchLoop desired supported m.rules

/-- The region-clearing mutation `desired.region = None;` as a value. -/
def clearRegion (l : LanguageIdentifier) : LanguageIdentifier := { l with region := none }

/-- The script-clearing mutation `desired.script = None;` as a value. -/
def clearScript (l : LanguageIdentifier) : LanguageIdentifier := { l with script := none }

/-- Region pass of `fn distance_impl`: contributes a rule lookup exactly
when the regions differ, otherwise contributes nothing. -/
def LanguageMatcher.regionPass (m : LanguageMatcher) (d s : LanguageIdentifier) : Option Nat :=
  if d.region ≠ s.region then m.distance_match d s else some 0

/-- Script pass of `fn distance_impl`. -/
def LanguageMatcher.scriptPass (m : LanguageMatcher) (d s : LanguageIdentifier) : Option Nat :=
  if d.script ≠ s.script then m.distance_match d s else some 0

/-- Language pass of `fn distance_impl`. -/
def LanguageMatcher.languagePass (m : LanguageMatcher) (d s : LanguageIdentifier) : Option Nat :=
  if d.language ≠ s.language then m.distance_match d s else some 0

/-- `fn distance_impl`: the three passes in source order — region, then
script, then language — with the scored dimension erased from both
identifiers between passes, accumulating with wrapping `u16` addition.
`none` models a pass hitting the `unreachable!()` panic. -/
def LanguageMatcher.distance_impl (m : LanguageMatcher)
    (desired supported : LanguageIdentifier) : Option Nat :=
  match m.regionPass desired supported with
  | none => none
  | some d1 =>
    let desired := clearRegion desired
    let supported := clearRegion supported
    match m.scriptPass desired supported with
    | none => none
    | some d2 =>
      let desired := clearScript desired
      let supported := clearScript supported
      match m.languagePass desired supported with
      | none => none
      | some d3 => some (u16 (u16 (d1 + d2) + d3))

/-- The per-candidate scoring inside `fn matches`: each candidate is kept
as supplied while a maximized copy is scored against the maximized desired
identifier.  The outer `Option` is `none` when some distance computation
panics. -/
def LanguageMatcher.matchScores (m : LanguageMatcher) (desired : LanguageIdentifier)
    (supported : List LanguageIdentifier) : Option (List (LanguageIdentifier × Nat)) :=
  let dmax := m.expander desired
  supported.mapM fun s => (m.distance_impl dmax (m.expander s)).map fun dis => (s, dis)

/-- One step of the minimum fold underlying `Iterator::min_by_key` on the
distance component: keep the earlier element unless a strictly smaller
key appears. -/
def minFold (x : LanguageIdentifier × Nat) (l : List (LanguageIdentifier × Nat)) :
    LanguageIdentifier × Nat :=
  l.foldl (fun acc y => if y.2 < acc.2 then y else acc) x

/-- `Iterator::min_by_key(|(_, dis)| *dis)` with its documented contract:
the first element attaining the minimum key is returned. -/
def minByKey : List (LanguageIdentifier × Nat) → Option (LanguageIdentifier × Nat)
  | [] => none
  | x :: xs => some (minFold x xs)

/-- `fn matches`: score every candidate, take the minimum-distance one
(first on ties), and drop it when its distance is not below 1000. -/
def LanguageMatcher.matches (m : LanguageMatcher) (desired : LanguageIdentifier)
    (supported : List LanguageIdentifier) : Option (Option (LanguageIdentifier × Nat)) :=
  (m.matchScores desired supported).map fun scored =>
    match minByKey scored with
    | some p => if p.2 < 1000 then some p else none
    | none => none

/-- The combined per-rule test from the loop body of `fn distance_match`:
the direct test, or — when the rule is not one-way — the swapped test. -/
def ruleApplies (vars : Variables) (rule : LanguageMatch)
    (desired supported : LanguageIdentifier) : Bool :=
  (rule.desired.matches desired vars && rule.supported.matches supported vars)
    || (!rule.oneway
        && (rule.supported.matches desired vars && rule.desired.matches supported vars))

/-- The tag pattern `*_*_*`: wildcard language, script and region. -/
def wildcardAll : LanguageIdentifierRule := ⟨.All, some .All, some .All⟩

/-! ### Structural lemmas about the rule-table scan -/

/-- The loop of `distance_match` is the first-match scan: it returns the
score of the first rule (in table order) whose combined test succeeds. -/
theorem matchLoop_eq_find? (m : LanguageMatcher) (d s : LanguageIdentifier) :
    ∀ rs : List LanguageMatch,
      m.matchLoop d s rs
        = (rs.find? fun r => ruleApplies m.vars r d s).map fun r => matchScore m r d s
  | [] => rfl
  | rule :: rest => by
    have ih := matchLoop_eq_find? m d s rest
    simp only [LanguageMatcher.matchLoop]
    cases hdir : rule.desired.matches d m.vars && rule.supported.matches s m.vars <;>
      cases hone : rule.oneway <;>
        cases hsw : rule.supported.matches d m.vars && rule.desired.matches s m.vars <;>
          simp [List.find?_cons, ruleApplies, hdir, hone, hsw, ih]

/-- `distance_match` as a first-match lookup over the whole table. -/
theorem distance_match_eq_find? (m : LanguageMatcher) (d s : LanguageIdentifier) :
    m.distance_match d s
      = (m.rules.find? fun r => ruleApplies m.vars r d s).map fun r => matchScore m r d s :=
  matchLoop_eq_find? m d s m.rules

/-! ### Lemmas about the minimum fold of best-match selection -/

theorem minFold_cons (x y : LanguageIdentifier × Nat) (l : List (LanguageIdentifier × Nat)) :
    minFold x (y :: l) = minFold (if y.2 < x.2 then y else x) l := rfl

theorem minFold_mem (x : LanguageIdentifier × Nat) :
    ∀ l : List (LanguageIdentifier × Nat), minFold x l = x ∨ minFold x l ∈ l := by
  intro l
  induction l generalizing x with
  | nil => exact Or.inl rfl
  | cons y ys ih =>
    rw [minFold_cons]
    rcases ih (if y.2 < x.2 then y else x) with h | h
    · rw [h]
      split
      · exact Or.inr (List.mem_cons_self _ _)
      · exact Or.inl rfl
    · exact Or.inr (List.mem_cons_of_mem _ h)

theorem minFold_le (x : LanguageIdentifier × Nat) :
    ∀ l : List (LanguageIdentifier × Nat),
      (minFold x l).2 ≤ x.2 ∧ ∀ q ∈ l, (minFold x l).2 ≤ q.2 := by
  intro l
  induction l generalizing x with
  | nil => exact ⟨Nat.le_refl _, by intro q hq; cases hq⟩
  | cons y ys ih =>
    rw [minFold_cons]
    obtain ⟨ha, hb⟩ := ih (if y.2 < x.2 then y else x)
    have hax : (if y.2 < x.2 then y else x).2 ≤ x.2 := by split <;> omega
    have hay : (if y.2 < x.2 then y else x).2 ≤ y.2 := by split <;> omega
    refine ⟨le_trans ha hax, ?_⟩
    intro q hq
    rcases List.mem_cons.mp hq with rfl | hq
    · exact le_trans ha hay
    · exact hb q hq

theorem minFold_stay (x : LanguageIdentifier × Nat) :
    ∀ l : List (LanguageIdentifier × Nat), (∀ q ∈ l, x.2 ≤ q.2) → minFold x l = x
  | [], _ => rfl
  | y :: ys, h => by
    rw [minFold_cons]
    have hy : ¬ y.2 < x.2 := Nat.not_lt.mpr (h y (List.mem_cons_self _ _))
    rw [if_neg hy]
    exact minFold_stay x ys fun q hq => h q (List.mem_cons_of_mem _ hq)

theorem minFold_first (p : LanguageIdentifier × Nat) :
    ∀ (l1 : List (LanguageIdentifier × Nat)) (x : LanguageIdentifier × Nat)
      (l2 : List (LanguageIdentifier × Nat)),
      p.2 < x.2 → (∀ q ∈ l1, p.2 < q.2) → (∀ q ∈ l2, p.2 ≤ q.2) →
      minFold x (l1 ++ p :: l2) = p
  | [], x, l2, hx, _, h2 => by
    rw [List.nil_append, minFold_cons, if_pos hx]
    exact minFold_stay p l2 h2
  | q :: l1, x, l2, hx, h1, h2 => by
    rw [List.cons_append, minFold_cons]
    have hq : p.2 < q.2 := h1 q (List.mem_cons_self _ _)
    refine minFold_first p l1 _ l2 ?_ (fun r hr => h1 r (List.mem_cons_of_mem _ hr)) h2
    split <;> omega

theorem minByKey_none : ∀ l : List (LanguageIdentifier × Nat), minByKey l = none ↔ l = []
  | [] => by simp [minByKey]
  | x :: xs => by simp [minByKey]

theorem minByKey_some (l : List (LanguageIdentifier × Nat)) (p : LanguageIdentifier × Nat)
    (h : minByKey l = some p) : p ∈ l ∧ ∀ q ∈ l, p.2 ≤ q.2 := by
  match l with
  | [] => cases h
  | x :: xs =>
    have hp : minFold x xs = p := by
      simpa [minByKey] using h
    subst hp
    constructor
    · rcases minFold_mem x xs with h | h
      · rw [h]; exact List.mem_cons_self _ _
      · exact List.mem_cons_of_mem _ h
    · intro q hq
      obtain ⟨ha, hb⟩ := minFold_le x xs
      rcases List.mem_cons.mp hq with rfl | hq
      · exact ha
      · exact hb q hq

theorem minByKey_first (l1 : List (LanguageIdentifier × Nat)) (p : LanguageIdentifier × Nat)
    (l2 : List (LanguageIdentifier × Nat))
    (h1 : ∀ q ∈ l1, p.2 < q.2) (h2 : ∀ q ∈ l2, p.2 ≤ q.2) :
    minByKey (l1 ++ p :: l2) = some p := by
  match l1 with
  | [] =>
    rw [List.nil_append]
    show some (minFold p l2) = some p
    rw [minFold_stay p l2 h2]
  | q :: l1 =>
    rw [List.cons_append]
    show some (minFold q (l1 ++ p :: l2)) = some p
    rw [minFold_first p l1 q l2 (h1 q (List.mem_cons_self _ _))
      (fun r hr => h1 r (List.mem_cons_of_mem _ hr)) h2]

/-! ### Concrete fixtures used by the witnesses -/

/-- An empty variable table. -/
def varsEx : Variables := fun _ => []

/-- A maximized English identifier. -/
def enFull : LanguageIdentifier := ⟨"en", some "Latn", some "US"⟩

/-- A maximized Japanese identifier. -/
def jaFull : LanguageIdentifier := ⟨"ja", some "Jpan", some "JP"⟩

/-- A maximized Korean identifier. -/
def koFull : LanguageIdentifier := ⟨"ko", some "Kore", some "KR"⟩

/-- A non-one-way catch-all rule of base distance 4. -/
def ruleEx : LanguageMatch := ⟨wildcardAll, wildcardAll, 4, false⟩

/-- A matcher whose table is the single catch-all `ruleEx` and whose
paradigm set holds exactly `enFull`; maximization is the identity. -/
def mEx : LanguageMatcher := ⟨[enFull], varsEx, [ruleEx], id⟩

/-! ### The claims -/

/-- Claim C1: rule lookup (`distance_match`) scans the table in loaded
order; a rule applies when the direct test succeeds, or — for rules that
are not one-way — when the swapped test succeeds; the first applying rule
determines the result, namely `rule.distance * 10`, decreased by exactly 1
iff exactly one of the two identifiers as passed in is in the paradigm
set.  Stated under the data-model bounds on base distances (`1..=100`),
which rule out `u16` wrap-around. -/
theorem c1_rule_lookup (m : LanguageMatcher) (d s : LanguageIdentifier)
    (hbounds : ∀ r ∈ m.rules, 1 ≤ r.distance ∧ r.distance ≤ 100) :
    m.distance_match d s
      = (m.rules.find? fun rule => ruleApplies m.vars rule d s).map
          fun r =>
            if Bool.xor (m.is_paradiam d) (m.is_paradiam s) then r.distance * 10 - 1
            else r.distance * 10 := by
  rw [distance_match_eq_find?]
  cases hf : m.rules.find? fun rule => ruleApplies m.vars rule d s with
  | none => simp
  | some r =>
    obtain ⟨hlo, hhi⟩ := hbounds r (List.mem_of_find?_eq_some hf)
    simp only [Option.map_some']
    refine congrArg some ?_
    simp only [matchScore, u16, u16sub]
    split <;> omega

/-- Witness for C1: on the one-rule matcher `mEx`, looking English up
against Japanese hits the catch-all rule and, since exactly `enFull` is a
paradigm locale, scores `4 * 10 - 1`. -/
theorem c1_rule_lookup_witness : mEx.distance_match enFull jaFull = some 39 :=
  (c1_rule_lookup mEx enFull jaFull (by decide)).trans rfl

/-- Claim C4: the case table of optional-subtag pattern matching — absent
pattern matches absent subtag; `All` always matches; absent pattern
against present subtag and present non-`All` pattern against absent
subtag fail; `Str v` matches exactly the equal string; `Var name` matches
membership of the variable set; `VarExclude name` matches
non-membership. -/
theorem c4_subtag_matching (vars : Variables) :
    SubTagRule.matchesOpt none none vars = true
    ∧ (∀ t : Option String, SubTagRule.matchesOpt (some .All) t vars = true)
    ∧ (∀ v : String, SubTagRule.matchesOpt none (some v) vars = false)
    ∧ (∀ s : String, SubTagRule.matchesOpt (some (.Str s)) none vars = false)
    ∧ (∀ n : String, SubTagRule.matchesOpt (some (.Var n)) none vars = false)
    ∧ (∀ n : String, SubTagRule.matchesOpt (some (.VarExclude n)) none vars = false)
    ∧ (∀ s v : String, SubTagRule.matchesOpt (some (.Str s)) (some v) vars = (s == v))
    ∧ (∀ n v : String,
        SubTagRule.matchesOpt (some (.Var n)) (some v) vars = (vars n).contains v)
    ∧ (∀ n v : String,
        SubTagRule.matchesOpt (some (.VarExclude n)) (some v) vars
          = !((vars n).contains v)) := by
  refine ⟨rfl, ?_, ?_, ?_, ?_, ?_, ?_, ?_, ?_⟩
  · intro t; cases t <;> rfl
  · intro v; rfl
  · intro s; rfl
  · intro n; rfl
  · intro n; rfl
  · intro s v; rfl
  · intro n v; rfl
  · intro n v; rfl

/-- Claim C6: the distance of any identifier to itself is 0 — every pass
compares equal dimensions, so no pass contributes. -/
theorem c6_distance_identity (m : LanguageMatcher) (A : LanguageIdentifier) :
    m.distance_impl A A = some 0 := by
  simp [LanguageMatcher.distance_impl, LanguageMatcher.regionPass, LanguageMatcher.scriptPass,
    LanguageMatcher.languagePass, u16]

/-! ### Bounds on lookup results under the data-model distance range -/

/-- For in-range values the wrapping decrement is plain subtraction. -/
theorem u16sub_one (a : Nat) (h1 : 1 ≤ a) (h2 : a < 65536) : u16sub a 1 = a - 1 := by
  unfold u16sub
  have e1 : a + 65536 - 1 = 65536 + (a - 1) := by omega
  rw [e1, Nat.add_mod_left]
  exact Nat.mod_eq_of_lt (by omega)

/-- Any successful rule lookup scores at most 1000 when every base
distance lies in `1..=100` (so neither the multiplication nor the
paradigm discount wraps). -/
theorem distance_match_le_1000 (m : LanguageMatcher) (d s : LanguageIdentifier) (c : Nat)
    (hbounds : ∀ r ∈ m.rules, 1 ≤ r.distance ∧ r.distance ≤ 100)
    (h : m.distance_match d s = some c) : c ≤ 1000 := by
  rw [distance_match_eq_find?] at h
  cases hf : m.rules.find? fun rule => ruleApplies m.vars rule d s with
  | none => rw [hf] at h; simp at h
  | some r =>
    rw [hf] at h
    simp only [Option.map_some', Option.some.injEq] at h
    obtain ⟨hlo, hhi⟩ := hbounds r (List.mem_of_find?_eq_some hf)
    have hsmall : r.distance * 10 % 65536 = r.distance * 10 := Nat.mod_eq_of_lt (by omega)
    simp only [matchScore, u16, hsmall] at h
    rw [u16sub_one (r.distance * 10) (by omega) (by omega)] at h
    split at h <;> omega

/-- A pass contributes at most 1000: either nothing (equal dimension) or
a bounded lookup result. -/
theorem passValue_le (m : LanguageMatcher) (d s : LanguageIdentifier) (c : Nat) (P : Prop)
    [Decidable P]
    (hbounds : ∀ r ∈ m.rules, 1 ≤ r.distance ∧ r.distance ≤ 100)
    (h : (if P then m.distance_match d s else some 0) = some c) : c ≤ 1000 := by
  split at h
  · exact distance_match_le_1000 m d s c hbounds h
  · injection h with h; omega

theorem regionPass_le (m : LanguageMatcher) (d s : LanguageIdentifier) (c : Nat)
    (hbounds : ∀ r ∈ m.rules, 1 ≤ r.distance ∧ r.distance ≤ 100)
    (h : m.regionPass d s = some c) : c ≤ 1000 := by
  unfold LanguageMatcher.regionPass at h
  exact passValue_le m d s c _ hbounds h

theorem scriptPass_le (m : LanguageMatcher) (d s : LanguageIdentifier) (c : Nat)
    (hbounds : ∀ r ∈ m.rules, 1 ≤ r.distance ∧ r.distance ≤ 100)
    (h : m.scriptPass d s = some c) : c ≤ 1000 := by
  unfold LanguageMatcher.scriptPass at h
  exact passValue_le m d s c _ hbounds h

theorem languagePass_le (m : LanguageMatcher) (d s : LanguageIdentifier) (c : Nat)
    (hbounds : ∀ r ∈ m.rules, 1 ≤ r.distance ∧ r.distance ≤ 100)
    (h : m.languagePass d s = some c) : c ≤ 1000 := by
  unfold LanguageMatcher.languagePass at h
  exact passValue_le m d s c _ hbounds h

/-- Claim C2: the engine runs the region, script and language passes in
that order, a pass contributes a rule lookup exactly when its dimension
differs, the scored dimension is erased from both identifiers before the
next pass, the total is the sum of the up-to-three contributions (the
data-model distance bounds rule out `u16` wrap-around of the sum), and
the total is 0 when all three dimensions agree. -/
theorem c2_three_pass (m : LanguageMatcher) (A B : LanguageIdentifier)
    (hbounds : ∀ r ∈ m.rules, 1 ≤ r.distance ∧ r.distance ≤ 100) :
    (∀ c1 c2 c3 : Nat,
      m.regionPass A B = some c1 →
      m.scriptPass (clearRegion A) (clearRegion B) = some c2 →
      m.languagePass (clearScript (clearRegion A)) (clearScript (clearRegion B)) = some c3 →
      m.distance_impl A B = some (c1 + c2 + c3))
    ∧ (A.region = B.region → A.script = B.script → A.language = B.language →
        m.distance_impl A B = some 0) := by
  constructor
  · intro c1 c2 c3 h1 h2 h3
    have b1 : c1 ≤ 1000 := regionPass_le m A B c1 hbounds h1
    have b2 : c2 ≤ 1000 := scriptPass_le m _ _ c2 hbounds h2
    have b3 : c3 ≤ 1000 := languagePass_le m _ _ c3 hbounds h3
    simp only [LanguageMatcher.distance_impl]
    rw [h1, h2, h3]
    refine congrArg some ?_
    simp only [u16]
    omega
  · intro e1 e2 e3
    simp [LanguageMatcher.distance_impl, LanguageMatcher.regionPass, LanguageMatcher.scriptPass,
      LanguageMatcher.languagePass, clearRegion, clearScript, e1, e2, e3, u16]

/-- Witness for C2: on the one-rule matcher `mEx`, the three passes for
English against Japanese contribute 39 (paradigm discount), 40 and 40. -/
theorem c2_three_pass_witness : mEx.distance_impl enFull jaFull = some 119 :=
  ((c2_three_pass mEx enFull jaFull (by decide)).1 39 40 40 rfl rfl rfl).trans rfl

/-- A non-one-way catch-all rule of the largest data-model base
distance, 100. -/
def ruleBig : LanguageMatch := ⟨wildcardAll, wildcardAll, 100, false⟩

/-- A matcher whose only rule is `ruleBig` and whose paradigm set is
empty; maximization is the identity. -/
def mBig : LanguageMatcher := ⟨[], varsEx, [ruleBig], id⟩

/-- Counterexample to claim C8 as stated: with a rule table that respects
every data-model constraint (base distances in `0..=100`, universal
fallback present), two fully differing maximized identifiers score
3000 — not below 1000.  All three passes hit the catch-all rule of base
distance 100, so each contributes 1000. -/
theorem c8_range_counterexample :
    ¬ (∀ dist : Nat, mBig.distance_impl enFull jaFull = some dist → dist < 1000) := by
  intro h
  have h3000 := h 3000 rfl
  omega

/-- Claim C8 amended: with every base distance in the data-model range
`1..=100` (the lower bound ruling out the paradigm-discount underflow),
any distance the engine returns is at most 3000 — each of the three
passes contributes at most 1000; the interval `[0, 1000)` of the original
claim holds for no-pass-beyond-region tables only. -/
theorem c8_amended_range (m : LanguageMatcher) (A B : LanguageIdentifier) (dist : Nat)
    (hbounds : ∀ r ∈ m.rules, 1 ≤ r.distance ∧ r.distance ≤ 100)
    (h : m.distance_impl A B = some dist) : dist ≤ 3000 := by
  simp only [LanguageMatcher.distance_impl] at h
  split at h
  · exact absurd h (by simp)
  next d1 hd1 =>
    split at h
    · exact absurd h (by simp)
    next d2 hd2 =>
      split at h
      · exact absurd h (by simp)
      next d3 hd3 =>
        have b1 : d1 ≤ 1000 := regionPass_le m _ _ d1 hbounds hd1
        have b2 : d2 ≤ 1000 := scriptPass_le m _ _ d2 hbounds hd2
        have b3 : d3 ≤ 1000 := languagePass_le m _ _ d3 hbounds hd3
        simp only [Option.some.injEq, u16] at h
        omega

/-- Witness for the amended C8: the distance 119 computed by `mEx` for
English against Japanese is within the amended bound. -/
theorem c8_amended_range_witness :
    mEx.distance_impl enFull jaFull = some 119 ∧ 119 ≤ 3000 :=
  ⟨rfl, c8_amended_range mEx enFull jaFull 119 (by decide) rfl⟩

/-- The tag pattern `*_*_*` matches every identifier: `All` accepts a
present subtag and an absent one alike. -/
theorem wildcardAll_matches (vars : Variables) (lang : LanguageIdentifier) :
    wildcardAll.matches lang vars = true := by
  cases hs : lang.script <;> cases hr : lang.region <;>
    simp [wildcardAll, LanguageIdentifierRule.matches, SubTagRule.matches,
      SubTagRule.matchesOpt, hs, hr]

/-- Claim C9: as soon as the table holds a rule whose two sides are the
universal wildcard pattern, every lookup finds some matching rule, so the
`unreachable!()` branch (`none` in this embedding) is never taken. -/
theorem c9_fallback_never_unreachable (m : LanguageMatcher) (d s : LanguageIdentifier)
    (r : LanguageMatch) (hmem : r ∈ m.rules)
    (hdes : r.desired = wildcardAll) (hsup : r.supported = wildcardAll) :
    (m.distance_match d s).isSome = true := by
  rw [distance_match_eq_find?]
  have happ : ruleApplies m.vars r d s = true := by
    simp [ruleApplies, hdes, hsup, wildcardAll_matches]
  cases hf : m.rules.find? fun rule => ruleApplies m.vars rule d s with
  | none =>
    rw [List.find?_eq_none] at hf
    exact absurd happ (by simpa using hf r hmem)
  | some r2 => rfl

/-- Witness for C9: the catch-all rule of `mEx` keeps its lookup total
on a concrete pair. -/
theorem c9_fallback_witness : (mEx.distance_match enFull jaFull).isSome = true :=
  c9_fallback_never_unreachable mEx enFull jaFull ruleEx (by decide) rfl rfl

/-- Claim C10: when the first matching rule has base distance 0 and
exactly one side is a paradigm locale, the `u16` computation
`rule.distance * 10 - 1` underflows: in the wrapping (release-build)
semantics embedded here the lookup yields 65535 rather than a distance
one less than 0, so the result is only sensible under the precondition
that a discounted rule has base distance at least 1. -/
theorem c10_discount_underflow (m : LanguageMatcher) (d s : LanguageIdentifier)
    (r : LanguageMatch)
    (hfind : (m.rules.find? fun rule => ruleApplies m.vars rule d s) = some r)
    (hzero : r.distance = 0)
    (hxor : Bool.xor (m.is_paradiam d) (m.is_paradiam s) = true) :
    m.distance_match d s = some 65535 := by
  rw [distance_match_eq_find?, hfind]
  simp only [Option.map_some']
  refine congrArg some ?_
  simp only [matchScore, hzero, hxor, u16, u16sub]
  rfl

/-- A catch-all rule of base distance 0. -/
def ruleZero : LanguageMatch := ⟨wildcardAll, wildcardAll, 0, false⟩

/-- A matcher whose only rule is `ruleZero`, with `enFull` paradigm. -/
def mZero : LanguageMatcher := ⟨[enFull], varsEx, [ruleZero], id⟩

/-- Witness for C10: the underflow value 65535 on a concrete matcher in
which English is a paradigm locale, Japanese is not, and the only rule
has base distance 0. -/
theorem c10_discount_underflow_witness : mZero.distance_match enFull jaFull = some 65535 :=
  c10_discount_underflow mZero enFull jaFull ruleZero rfl rfl rfl

/-- Claim C3: best-match returns the empty result exactly when every
candidate scores at least 1000 (vacuously so for an empty candidate
list), it never returns a candidate scoring 1000 or more, and a returned
pair is an original candidate achieving the minimum distance, stated over
any successfully scored candidate list. -/
theorem c3_best_match_threshold (m : LanguageMatcher) (d : LanguageIdentifier)
    (cands : List LanguageIdentifier) (scored : List (LanguageIdentifier × Nat))
    (h : m.matchScores d cands = some scored) :
    (m.matches d cands = some none ↔ ∀ p ∈ scored, 1000 ≤ p.2)
    ∧ (∀ c dis, m.matches d cands = some (some (c, dis)) →
        dis < 1000 ∧ (c, dis) ∈ scored ∧ ∀ p ∈ scored, dis ≤ p.2)
    ∧ (cands = [] → m.matches d cands = some none) := by
  have hm : m.matches d cands
      = some (match minByKey scored with
              | some p => if p.2 < 1000 then some p else none
              | none => none) := by
    unfold LanguageMatcher.matches
    rw [h, Option.map_some']
  have hnil : cands = [] → m.matchScores d cands = some [] := by
    intro hc; subst hc; rfl
  cases hmin : minByKey scored with
  | none =>
    have hempty : scored = [] := (minByKey_none scored).mp hmin
    subst hempty
    have hm2 : m.matches d cands = some none := hm.trans (by rw [hmin])
    refine ⟨⟨fun _ => ?_, fun _ => hm2⟩, ?_, fun _ => hm2⟩
    · intro p hp; cases hp
    · intro c dis hcd
      exact absurd (hm2.symm.trans hcd) (by simp)
  | some p =>
    obtain ⟨hpmem, hpmin⟩ := minByKey_some scored p hmin
    by_cases hlt : p.2 < 1000
    · have hm2 : m.matches d cands = some (some p) := hm.trans (by rw [hmin]; simp [hlt])
      refine ⟨⟨fun he => ?_, fun hall => ?_⟩, ?_, ?_⟩
      · exact absurd (hm2.symm.trans he) (by simp)
      · exact absurd (hall p hpmem) (by omega)
      · intro c dis hcd
        have hpc : some (some p) = some (some (c, dis)) := hm2.symm.trans hcd
        have hp1 : some p = some (c, dis) := by injection hpc
        have hp2 : p = (c, dis) := by injection hp1
        subst hp2
        exact ⟨hlt, hpmem, hpmin⟩
      · intro hc
        have hsc : some scored = some ([] : List (LanguageIdentifier × Nat)) :=
          h.symm.trans (hnil hc)
        have hsc2 : scored = [] := by injection hsc
        subst hsc2
        cases hpmem
    · have hm2 : m.matches d cands = some none := hm.trans (by rw [hmin]; simp [hlt])
      refine ⟨⟨fun _ => ?_, fun _ => hm2⟩, ?_, fun _ => hm2⟩
      · intro q hq
        have hle := hpmin q hq
        omega
      · intro c dis hcd
        exact absurd (hm2.symm.trans hcd) (by simp)

/-- Witness for C3: with the single candidate Japanese at distance 119,
the empty-result condition is equivalent to all scores reaching 1000. -/
theorem c3_best_match_threshold_witness :
    mEx.matches enFull [jaFull] = some none ↔ ∀ p ∈ [(jaFull, 119)], 1000 ≤ p.2 :=
  (c3_best_match_threshold mEx enFull [jaFull] [(jaFull, 119)] rfl).1

/-- Claim C7: when the scored candidate list splits around an element `p`
that strictly beats everything before it and is no worse than everything
after it — in particular when later candidates tie its minimal distance —
best-match returns exactly `p`, the first minimal candidate in input
order. -/
theorem c7_first_minimal (m : LanguageMatcher) (d : LanguageIdentifier)
    (cands : List LanguageIdentifier) (l1 l2 : List (LanguageIdentifier × Nat))
    (p : LanguageIdentifier × Nat)
    (h : m.matchScores d cands = some (l1 ++ p :: l2))
    (h1 : ∀ q ∈ l1, p.2 < q.2) (h2 : ∀ q ∈ l2, p.2 ≤ q.2) (hlt : p.2 < 1000) :
    m.matches d cands = some (some p) := by
  have hm : m.matches d cands
      = some (match minByKey (l1 ++ p :: l2) with
              | some q => if q.2 < 1000 then some q else none
              | none => none) := by
    unfold LanguageMatcher.matches
    rw [h, Option.map_some']
  rw [hm, minByKey_first l1 p l2 h1 h2]
  simp [hlt]

/-- Witness for C7: Japanese and Korean tie at distance 119 against
English; the first of the two in input order is returned. -/
theorem c7_first_minimal_witness :
    mEx.matches enFull [jaFull, koFull] = some (some (jaFull, 119)) :=
  c7_first_minimal mEx enFull [jaFull, koFull] [] [(koFull, 119)] (jaFull, 119) rfl
    (by decide) (by decide) (by decide)

/-- One pass of a lookup pair is decided by a common non-one-way rule:
the first applying rule is the same in both directions and is not
one-way. -/
def symDecided (m : LanguageMatcher) (d s : LanguageIdentifier) : Prop :=
  ∃ r : LanguageMatch,
    (m.rules.find? fun rule => ruleApplies m.vars rule d s) = some r
    ∧ (m.rules.find? fun rule => ruleApplies m.vars rule s d) = some r
    ∧ r.oneway = false

/-- A lookup decided by a common rule scores the same in both directions:
the base distance comes from the rule alone and the paradigm condition is
symmetric. -/
theorem distance_match_symm (m : LanguageMatcher) (d s : LanguageIdentifier)
    (h : symDecided m d s) : m.distance_match d s = m.distance_match s d := by
  obtain ⟨r, h1, h2, -⟩ := h
  rw [distance_match_eq_find?, distance_match_eq_find?, h1, h2]
  simp only [Option.map_some']
  refine congrArg some ?_
  simp only [matchScore]
  rw [Bool.xor_comm]

theorem regionPass_symm (m : LanguageMatcher) (d s : LanguageIdentifier)
    (h : symDecided m d s) : m.regionPass d s = m.regionPass s d := by
  unfold LanguageMatcher.regionPass
  by_cases he : d.region = s.region
  · rw [if_neg (by simp [he]), if_neg (by simp [he])]
  · rw [if_pos he, if_pos (Ne.symm he)]
    exact distance_match_symm m d s h

theorem scriptPass_symm (m : LanguageMatcher) (d s : LanguageIdentifier)
    (h : symDecided m d s) : m.scriptPass d s = m.scriptPass s d := by
  unfold LanguageMatcher.scriptPass
  by_cases he : d.script = s.script
  · rw [if_neg (by simp [he]), if_neg (by simp [he])]
  · rw [if_pos he, if_pos (Ne.symm he)]
    exact distance_match_symm m d s h

theorem languagePass_symm (m : LanguageMatcher) (d s : LanguageIdentifier)
    (h : symDecided m d s) : m.languagePass d s = m.languagePass s d := by
  unfold LanguageMatcher.languagePass
  by_cases he : d.language = s.language
  · rw [if_neg (by simp [he]), if_neg (by simp [he])]
  · rw [if_pos he, if_pos (Ne.symm he)]
    exact distance_match_symm m d s h

/-- Claim C5: when every pass of both directions is decided by a common
non-one-way rule, the distance is symmetric. -/
theorem c5_symmetry (m : LanguageMatcher) (A B : LanguageIdentifier)
    (hp1 : symDecided m A B)
    (hp2 : symDecided m (clearRegion A) (clearRegion B))
    (hp3 : symDecided m (clearScript (clearRegion A)) (clearScript (clearRegion B))) :
    m.distance_impl A B = m.distance_impl B A := by
  simp only [LanguageMatcher.distance_impl]
  rw [regionPass_symm m A B hp1, scriptPass_symm m _ _ hp2, languagePass_symm m _ _ hp3]

/-- Witness for C5: on the one-rule matcher every pass of both directions
is decided by the common non-one-way catch-all, and the two directions
agree. -/
theorem c5_symmetry_witness :
    mEx.distance_impl enFull jaFull = mEx.distance_impl jaFull enFull :=
  c5_symmetry mEx enFull jaFull ⟨ruleEx, rfl, rfl, rfl⟩ ⟨ruleEx, rfl, rfl, rfl⟩
    ⟨ruleEx, rfl, rfl, rfl⟩
